import Mathlib

/-!
Shallow embedding of the set-comparison engine of `src/commr/src/lib.rs`
(a `comm`-style utility) and proofs about its merge loop, output
formatter, case folding, line decoding and configuration check.

Modelling conventions:
* A text line is a Lean `String`; Rust's `String::cmp` (byte-wise
  lexicographic on UTF-8) coincides with codepoint-lexicographic order,
  which is what `compare` on Lean strings computes.
* The two lazy line iterators become finite lists consumed from the
  front; `lines().filter_map(Result::ok)` becomes `filterMap` over a
  list of `Except` values (`Except.error` = a line that failed to
  decode).
* `println!` becomes returning `some line`; printing nothing becomes
  `none`; the whole run's standard output is the list of emitted lines.
-/

namespace Commr

/-- The `Config` struct of `commr` (fields as in the Rust source). -/
structure Config where
  file1 : String
  file2 : String
  show_col1 : Bool
  show_col2 : Bool
  show_col3 : Bool
  insensitive : Bool
  delimiter : String

/-- The `Column` enum of `commr`: the argument type of the `print` closure. -/
inductive Column where
  | Col1 (val : String)
  | Col2 (val : String)
  | Col3 (val : String)

/-- Rust's `str::to_lowercase`, embedded as a per-character lowercase map
over the string's characters. -/
def toLowercase (s : String) : String := String.mk (s.data.map Char.toLower)

/-- The `case` closure of `run`: folds the line to lower case when
`config.insensitive` is set, otherwise passes it through. -/
def case (config : Config) (line : String) : String :=
  if config.insensitive then toLowercase line else line

/-- The `print` closure of `run`: builds the cell list for one
classification and, when the list is non-empty, joins it with the
configured delimiter into one output line (`none` = no line printed). -/
def print (config : Config) (col : Column) : Option String :=
  let columns : List String :=
    match col with
    | Column.Col1 val => if config.show_col1 then [val] else []
    | Column.Col2 val =>
        if config.show_col2 then (if config.show_col1 then [""] else []) ++ [val]
        else []
    | Column.Col3 val =>
        if config.show_col3 then
          (if config.show_col1 then [""] else []) ++
            (if config.show_col2 then [""] else []) ++ [val]
        else []
  if columns.isEmpty then none else some (String.intercalate config.delimiter columns)

/-- How the `while` loop of `run` disposes of one line: the three
classifications of the `(Some, Some)` state, and the raw-emission paths
of the `(Some, None)` / `(None, Some)` states. -/
inductive Classification where
  | Common (val : String)
  | UniqueA (val : String)
  | UniqueB (val : String)
  | RawA (val : String)
  | RawB (val : String)
deriving DecidableEq

/-- The `while line1.is_some() || line2.is_some()` loop of `run`, with the
two iterators replaced by the lists of their remaining lines: in the
`(Some, Some)` state it compares the two pending lines (`val1.cmp(val2)`),
emits `Col3`/`Col1`/`Col2` and advances both / only A / only B; once one
side is exhausted it raw-emits every remaining line of the other side. -/
def commLoop (as bs : List String) : List Classification :=
  match as, bs with
  | a :: as, b :: bs =>
    match compare a b with
    | Ordering.eq => Classification.Common a :: commLoop as bs
    | Ordering.lt => Classification.UniqueA a :: commLoop as (b :: bs)
    | Ordering.gt => Classification.UniqueB b :: commLoop (a :: as) bs
  | a :: as, [] => Classification.RawA a :: commLoop as []
  | [], b :: bs => Classification.RawB b :: commLoop [] bs
  | [], [] => []
termination_by as.length + bs.length

/-- The same loop instrumented with fuel: one unit of fuel is spent per
iteration, and `none` means the fuel ran out before the `Done` state
(both pending lines empty) was reached.  Used to state termination. -/
def commLoopFuel (fuel : Nat) (as bs : List String) : Option (List Classification) :=
  match fuel, as, bs with
  | _, [], [] => some []
  | 0, _ :: _, _ => none
  | 0, [], _ :: _ => none
  | fuel + 1, a :: as, b :: bs =>
    match compare a b with
    | Ordering.eq => (commLoopFuel fuel as bs).map (fun r => Classification.Common a :: r)
    | Ordering.lt => (commLoopFuel fuel as (b :: bs)).map (fun r => Classification.UniqueA a :: r)
    | Ordering.gt => (commLoopFuel fuel (a :: as) bs).map (fun r => Classification.UniqueB b :: r)
  | fuel + 1, a :: as, [] => (commLoopFuel fuel as []).map (fun r => Classification.RawA a :: r)
  | fuel + 1, [], b :: bs => (commLoopFuel fuel [] bs).map (fun r => Classification.RawB b :: r)

/-- How the loop body routes one disposition to output: the three
classifications go through the `print` closure with the matching
`Column`; the raw paths are `println!("{}", val)` — the line itself,
unconditionally, with no formatting. -/
def emit (config : Config) : Classification → Option String
  | Classification.Common v => print config (Column.Col3 v)
  | Classification.UniqueA v => print config (Column.Col1 v)
  | Classification.UniqueB v => print config (Column.Col2 v)
  | Classification.RawA v => some v
  | Classification.RawB v => some v

/-- `lines().filter_map(Result::ok)`: lines that failed to decode are
silently dropped. -/
def decodeLines (raw : List (Except String String)) : List String :=
  raw.filterMap Except.toOption

/-- A whole line source: `open(file)?.lines().filter_map(Result::ok).map(case)`. -/
def sourceLines (config : Config) (raw : List (Except String String)) : List String :=
  (decodeLines raw).map (Commr.case config)

/-- The standard output of a run, given the two post-`case` line lists:
every line the loop prints, in order. -/
def runOutput (config : Config) (linesA linesB : List String) : List String :=
  (commLoop linesA linesB).filterMap (emit config)

/-- The `run` function: rejects the configuration in which both inputs
are `"-"` before touching either stream, otherwise produces the output
lines of the merge loop over the two decoded, case-folded sources. -/
def run (config : Config) (rawA rawB : List (Except String String)) :
    Except String (List String) :=
  if config.file1 == "-" && config.file2 == "-" then
    Except.error "Both input files cannot be STDIN (\"-\")"
  else
    Except.ok (runOutput config (sourceLines config rawA) (sourceLines config rawB))

/-- Concrete configuration: `-1 -2` (suppress columns 1 and 2), tab
delimiter, case-sensitive. -/
def cfgSuppress12 : Config := Config.mk "a.txt" "b.txt" false false true false "\t"

/-- Concrete configuration: both inputs standard input, default flags. -/
def cfgStdin : Config := Config.mk "-" "-" true true true false "\t"

/-- Concrete configuration: only the second input is standard input. -/
def cfgOneFile : Config := Config.mk "a.txt" "-" true true true false "\t"

/-- Concrete configuration: case-insensitive (`-i`), default columns. -/
def cfgFold : Config := Config.mk "a.txt" "b.txt" true true true true "\t"

/-- Concrete configuration: all columns shown, tab delimiter. -/
def cfgShowAll : Config := Config.mk "a.txt" "b.txt" true true true false "\t"

/-- Concrete configuration sharing `show_col1` with `cfgShowAll` but
differing in `show_col2`, `show_col3` and the delimiter. -/
def cfgOther : Config := Config.mk "x.txt" "y.txt" true false false false ","

theorem compare_self (s : String) : compare s s = Ordering.eq := by
  simp [compare, compareOfLessAndEq]

theorem intercalate_singleton (d t : String) : String.intercalate d [t] = t := rfl

theorem commLoopFuel_correct (fuel : Nat) : ∀ as bs : List String,
    as.length + bs.length ≤ fuel → commLoopFuel fuel as bs = some (commLoop as bs) := by
  induction fuel with
  | zero =>
    intro as bs h
    have ha : as = [] := by cases as with
      | nil => rfl
      | cons x xs => simp only [List.length_cons] at h; omega
    subst ha
    have hb : bs = [] := by cases bs with
      | nil => rfl
      | cons x xs => simp only [List.length_cons] at h; omega
    subst hb
    simp [commLoopFuel, commLoop]
  | succ f ih =>
    intro as bs h
    match as, bs with
    | [], [] => simp [commLoopFuel, commLoop]
    | a :: as, [] =>
      simp only [List.length_cons, List.length_nil] at h
      simp [commLoopFuel, commLoop, ih as [] (by simp only [List.length_nil]; omega)]
    | [], b :: bs =>
      simp only [List.length_cons, List.length_nil] at h
      simp [commLoopFuel, commLoop, ih [] bs (by simp only [List.length_nil]; omega)]
    | a :: as, b :: bs =>
      simp only [List.length_cons] at h
      cases hc : compare a b with
      | eq => simp [commLoopFuel, commLoop, hc, ih as bs (by omega)]
      | lt => simp [commLoopFuel, commLoop, hc,
          ih as (b :: bs) (by simp only [List.length_cons]; omega)]
      | gt => simp [commLoopFuel, commLoop, hc,
          ih (a :: as) bs (by simp only [List.length_cons]; omega)]

theorem commLoop_eval (as bs : List String) (out : List Classification)
    (h : commLoopFuel (as.length + bs.length) as bs = some out) : commLoop as bs = out := by
  have hc := commLoopFuel_correct (as.length + bs.length) as bs (le_refl _)
  rw [hc] at h
  exact Option.some.inj h

theorem commLoop_nil_right (as : List String) :
    commLoop as [] = as.map Classification.RawA := by
  induction as with
  | nil => simp [commLoop]
  | cons a as ih => simp [commLoop, ih]

theorem commLoop_nil_left (bs : List String) :
    commLoop [] bs = bs.map Classification.RawB := by
  induction bs with
  | nil => simp [commLoop]
  | cons b bs ih => simp [commLoop, ih]

/-- Claim C1: while both sources have a pending line, the loop compares
the two pending lines by codepoint ordering; on equality it emits
`Common` carrying the A-side line and advances both sources, on
`a < b` it emits `UniqueA a` and advances only A, and on `a > b` it
emits `UniqueB b` and advances only B. -/
theorem commr_both_state_classification (a b : String) (as bs : List String) :
    (compare a b = Ordering.eq →
      commLoop (a :: as) (b :: bs) = Classification.Common a :: commLoop as bs) ∧
    (compare a b = Ordering.lt →
      commLoop (a :: as) (b :: bs) = Classification.UniqueA a :: commLoop as (b :: bs)) ∧
    (compare a b = Ordering.gt →
      commLoop (a :: as) (b :: bs) = Classification.UniqueB b :: commLoop (a :: as) bs) := by
  refine ⟨fun h => ?_, fun h => ?_, fun h => ?_⟩ <;> simp [commLoop, h]

/-- Witness for C1: the three transitions at concrete pending lines. -/
theorem commr_both_state_classification_witness :
    commLoop ["b"] ["b"] = Classification.Common "b" :: commLoop [] [] ∧
    commLoop ["a"] ["b"] = Classification.UniqueA "a" :: commLoop [] ["b"] ∧
    commLoop ["c"] ["b"] = Classification.UniqueB "b" :: commLoop ["c"] [] :=
  ⟨(commr_both_state_classification "b" "b" [] []).1 (by decide),
   (commr_both_state_classification "a" "b" [] []).2.1 (by decide),
   (commr_both_state_classification "c" "b" [] []).2.2 (by decide)⟩

/-- Claim C2: once one source is exhausted, every remaining line of the
other source is raw-emitted — the classification is `RawA`/`RawB` and
`emit` maps it to the line itself for every configuration (no cells, no
delimiter, no suppression check); in particular, with A empty the run's
output is exactly the lines of B, whatever the flags and delimiter. -/
theorem commr_raw_emit_after_exhaustion (config : Config) (as bs : List String) :
    commLoop as [] = as.map Classification.RawA ∧
    commLoop [] bs = bs.map Classification.RawB ∧
    (∀ v, emit config (Classification.RawA v) = some v) ∧
    (∀ v, emit config (Classification.RawB v) = some v) ∧
    runOutput config [] bs = bs := by
  refine ⟨commLoop_nil_right as, commLoop_nil_left bs, fun v => rfl, fun v => rfl, ?_⟩
  rw [runOutput, commLoop_nil_left]
  induction bs with
  | nil => simp
  | cons b bs ih => simp [emit, ih]

/-- Claim C3: the formatter's cell rules.  `Col1 t` yields the single
cell `[t]` iff `show1`; `Col2 t` yields nothing iff `¬ show2`, else an
empty cell (iff `show1`) followed by `t`; `Col3 t` yields nothing iff
`¬ show3`, else empty cells for each of `show1`, `show2`, then `t`.
A non-empty cell list is joined with the delimiter into exactly one
line; an empty cell list produces no line at all (a one-cell row is the
bare cell, never a blank line). -/
theorem commr_formatter_cells (config : Config) (t : String) :
    print config (Column.Col1 t) = (if config.show_col1 then some t else none) ∧
    print config (Column.Col2 t) =
      (if config.show_col2 then
        some (String.intercalate config.delimiter
          ((if config.show_col1 then [""] else []) ++ [t]))
       else none) ∧
    print config (Column.Col3 t) =
      (if config.show_col3 then
        some (String.intercalate config.delimiter
          ((if config.show_col1 then [""] else []) ++
            (if config.show_col2 then [""] else []) ++ [t]))
       else none) := by
  obtain ⟨f1, f2, s1, s2, s3, i, d⟩ := config
  cases s1 <;> cases s2 <;> cases s3 <;>
    simp [Commr.print, intercalate_singleton]

/-- Counterexample for C4: with `-1 -2` (tab delimiter, case-sensitive)
on A = apple, banana, cherry and B = banana, cherry, date the output is
not the four lines apple, banana, cherry, date: "apple" is classified
`UniqueA` in the `Both` state (A is not yet exhausted) and suppressed by
`show1 = false`. -/
theorem commr_suppress12_example_counterexample :
    runOutput cfgSuppress12 ["apple", "banana", "cherry"] ["banana", "cherry", "date"] ≠
      ["apple", "banana", "cherry", "date"] := by
  rw [runOutput, commLoop_eval ["apple", "banana", "cherry"] ["banana", "cherry", "date"]
    [Classification.UniqueA "apple", Classification.Common "banana",
     Classification.Common "cherry", Classification.RawB "date"] (by decide)]
  decide

/-- Claim C4 (amended): with `-1 -2`, tab delimiter, case-sensitive, on
A = apple, banana, cherry and B = banana, cherry, date, the output is
exactly the three lines banana, cherry, date: the unique line "apple"
is reached via the `Both` state and suppressed by `show1 = false`,
the `Common` cells collapse to bare text, and "date" alone is
raw-emitted (B still pending after A is exhausted). -/
theorem commr_suppress12_example :
    runOutput cfgSuppress12 ["apple", "banana", "cherry"] ["banana", "cherry", "date"] =
      ["banana", "cherry", "date"] := by
  rw [runOutput, commLoop_eval ["apple", "banana", "cherry"] ["banana", "cherry", "date"]
    [Classification.UniqueA "apple", Classification.Common "banana",
     Classification.Common "cherry", Classification.RawB "date"] (by decide)]
  decide

/-- Claim C5: when both source identifiers are `"-"`, `run` fails with
exactly the message `Both input files cannot be STDIN ("-")`, whatever
the input streams hold (the check precedes any open or read); for every
other pair of identifiers the check passes and the run proceeds. -/
theorem commr_stdin_rejection (config : Config) (rawA rawB : List (Except String String)) :
    (config.file1 = "-" → config.file2 = "-" →
      run config rawA rawB = Except.error "Both input files cannot be STDIN (\"-\")") ∧
    (¬ (config.file1 = "-" ∧ config.file2 = "-") →
      run config rawA rawB =
        Except.ok (runOutput config (sourceLines config rawA) (sourceLines config rawB))) := by
  constructor
  · intro h1 h2
    simp [run, h1, h2]
  · intro h
    have hb : (config.file1 == "-" && config.file2 == "-") = false := by
      rcases not_and_or.mp h with h1 | h1
      · simp [beq_eq_false_iff_ne, h1]
      · simp [beq_eq_false_iff_ne, h1]
    simp [run, hb]

/-- Witness for C5: the rejection at the both-stdin configuration, and
acceptance when only one input is standard input. -/
theorem commr_stdin_rejection_witness :
    run cfgStdin [] [] = Except.error "Both input files cannot be STDIN (\"-\")" ∧
    run cfgOneFile [] [] =
      Except.ok (runOutput cfgOneFile (sourceLines cfgOneFile []) (sourceLines cfgOneFile [])) :=
  ⟨(commr_stdin_rejection cfgStdin [] []).1 rfl rfl,
   (commr_stdin_rejection cfgOneFile [] []).2 (by decide)⟩

/-- Claim C6: with the case-insensitivity flag set, a line source folds
every line to lower case once, at production time, so the folded value
is what is compared and displayed; two lines differing only in case at
the same rank are classified `Common` carrying the folded text; with
the flag unset, `case` passes the line through unchanged. -/
theorem commr_case_fold (config : Config) (h : config.insensitive = true) :
    (∀ raw : List (Except String String),
      sourceLines config raw = (decodeLines raw).map toLowercase) ∧
    (∀ a b : String, toLowercase a = toLowercase b →
      commLoop [Commr.case config a] [Commr.case config b] =
        [Classification.Common (toLowercase a)]) ∧
    (∀ config2 : Config, config2.insensitive = false →
      ∀ l : String, Commr.case config2 l = l) := by
  refine ⟨?_, ?_, ?_⟩
  · intro raw
    simp [sourceLines, Commr.case, h]
  · intro a b hab
    rw [show Commr.case config a = toLowercase a from by simp [Commr.case, h],
      show Commr.case config b = toLowercase b from by simp [Commr.case, h], hab]
    simp [commLoop, compare_self]
  · intro config2 h2 l
    simp [Commr.case, h2]

/-- Witness for C6: under `-i`, "Apple" and "aPPLE" meet as one folded
`Common` line. -/
theorem commr_case_fold_witness :
    commLoop [Commr.case cfgFold "Apple"] [Commr.case cfgFold "aPPLE"] =
      [Classification.Common (toLowercase "Apple")] :=
  (commr_case_fold cfgFold rfl).2.1 "Apple" "aPPLE" (by decide)

/-- Claim C7: comparing a sequence against itself yields only `Common`
classifications, one per line, in the original order — zero `UniqueA`
or `UniqueB`. -/
theorem commr_self_compare_common (S : List String) :
    commLoop S S = S.map Classification.Common := by
  induction S with
  | nil => simp [commLoop]
  | cons a S ih => simp [commLoop, compare_self, ih]

/-- Claim C8: a line that fails to decode is silently dropped by the
line source: removing the failing entry does not change the decoded
sequence, the post-`case` line sequence, or the run's result — no error
is surfaced and the remaining lines are processed unaffected. -/
theorem commr_decode_error_dropped (config : Config)
    (xs ys rawB : List (Except String String)) (e : String) :
    decodeLines (xs ++ Except.error e :: ys) = decodeLines (xs ++ ys) ∧
    sourceLines config (xs ++ Except.error e :: ys) = sourceLines config (xs ++ ys) ∧
    run config (xs ++ Except.error e :: ys) rawB = run config (xs ++ ys) rawB := by
  have h : decodeLines (xs ++ Except.error e :: ys) = decodeLines (xs ++ ys) := by
    simp [decodeLines, List.filterMap_append, List.filterMap_cons, Except.toOption]
  refine ⟨h, ?_, ?_⟩
  · simp [sourceLines, h]
  · simp [run, sourceLines, h]

/-- Claim C9: the driver loop terminates for all finite inputs: since
every iteration consumes at least one pending line, a fuel budget of
`|A| + |B|` iterations always reaches the `Done` state (returning the
loop's full output), and the `Done` state — both pending lines empty —
is exactly where the loop stops with no further emission. -/
theorem commr_loop_terminates (as bs : List String) :
    commLoopFuel (as.length + bs.length) as bs = some (commLoop as bs) ∧
    commLoop [] [] = [] :=
  ⟨commLoopFuel_correct (as.length + bs.length) as bs (le_refl _), by simp [commLoop]⟩

/-- Claim C10: the formatter's output for `UniqueA` depends only on
`show1` and the text: two configurations agreeing on `show_col1` produce
identical output for `Col1 t` regardless of `show2`, `show3` and the
delimiter, and that output is `t` itself when `show1` (a one-cell row is
joined with no separator) and nothing otherwise. -/
theorem commr_uniqueA_noninterference (c1 c2 : Config) (t : String)
    (h : c1.show_col1 = c2.show_col1) :
    print c1 (Column.Col1 t) = print c2 (Column.Col1 t) ∧
    print c1 (Column.Col1 t) = (if c1.show_col1 then some t else none) := by
  have e : ∀ c : Config, print c (Column.Col1 t) = (if c.show_col1 then some t else none) := by
    intro c
    cases hc : c.show_col1 <;> simp [Commr.print, hc, intercalate_singleton]
  refine ⟨?_, e c1⟩
  rw [e c1, e c2, h]

/-- Witness for C10: two configurations sharing `show_col1 = true` but
differing in every other visibility flag and in the delimiter print the
same single line for `Col1 "hello"`. -/
theorem commr_uniqueA_noninterference_witness :
    print cfgShowAll (Column.Col1 "hello") = print cfgOther (Column.Col1 "hello") ∧
    print cfgShowAll (Column.Col1 "hello") =
      (if cfgShowAll.show_col1 then some "hello" else none) :=
  commr_uniqueA_noninterference cfgShowAll cfgOther "hello" rfl

end Commr
